import Mathlib

/-!
Shallow embedding of the SoilStory client-side core:
the localStorage-backed `SoilStorage` class (analysis collection and
settings) and the `SoilAPI` client (remote/fallback analysis).

JavaScript values are modelled by `JVal` (objects are association lists in
insertion order), JS numbers by `Rat` (exact arithmetic on the values the
program manipulates), and the browser localStorage by a `Store` record: the
`available` flag is the result of the write-then-remove sentinel probe
`isStorageAvailable`, and the two logical keys hold their JSON-parsed
contents (`none` = key absent).  Fallible operations return `Except`.
-/

/-! ## JavaScript string primitives (ASCII fragment used by the program) -/

/-- Whitespace recognised by `String.prototype.trim` (ASCII fragment). -/
def isWs (c : Char) : Bool :=
  c == ' ' || c == '\t' || c == '\n' || c == '\r' || c == '\x0b' || c == '\x0c'

/-- Upper-case/lower-case letter pairs for `toLowerCase`. -/
def ucTable : List (Char × Char) :=
  [('A', 'a'), ('B', 'b'), ('C', 'c'), ('D', 'd'), ('E', 'e'), ('F', 'f'),
   ('G', 'g'), ('H', 'h'), ('I', 'i'), ('J', 'j'), ('K', 'k'), ('L', 'l'),
   ('M', 'm'), ('N', 'n'), ('O', 'o'), ('P', 'p'), ('Q', 'q'), ('R', 'r'),
   ('S', 's'), ('T', 't'), ('U', 'u'), ('V', 'v'), ('W', 'w'), ('X', 'x'),
   ('Y', 'y'), ('Z', 'z')]

/-- `toLowerCase` on one character. -/
def lowerChar (c : Char) : Char :=
  match ucTable.find? (fun p => p.1 == c) with
  | some p => p.2
  | none => c

/-- `String.prototype.toLowerCase`. -/
def lowerStr (s : String) : String := ⟨s.data.map lowerChar⟩

/-- `String.prototype.trim` on a character list. -/
def trimChars (l : List Char) : List Char :=
  ((l.dropWhile isWs).reverse.dropWhile isWs).reverse

/-- `String.prototype.trim`. -/
def trimStr (s : String) : String := ⟨trimChars s.data⟩

/-- `String.prototype.includes`: `t` occurs as a contiguous substring of `s`. -/
def jsIncludes (s t : String) : Bool :=
  (List.range (s.data.length + 1)).any (fun i => t.data.isPrefixOf (s.data.drop i))

/-- Decimal digit characters. -/
def digitChar (m : Nat) : Char :=
  if m = 0 then '0' else if m = 1 then '1' else if m = 2 then '2'
  else if m = 3 then '3' else if m = 4 then '4' else if m = 5 then '5'
  else if m = 6 then '6' else if m = 7 then '7' else if m = 8 then '8' else '9'

/-- Decimal digits of a natural number, most significant first (fuel-based). -/
def natDigits : Nat → Nat → List Char
  | 0, _ => []
  | fuel + 1, n => if n < 10 then [digitChar n] else natDigits fuel (n / 10) ++ [digitChar (n % 10)]

/-- Decimal digit list of a natural number. -/
def natChars (n : Nat) : List Char := natDigits (n + 1) n

/-- Decimal string of a natural number. -/
def natToStr (n : Nat) : String := ⟨natChars n⟩

/-- Decimal character list of an integer. -/
def intChars (n : Int) : List Char :=
  (if n < 0 then ['-'] else []) ++ natChars n.natAbs

/-- Decimal string of an integer. -/
def intToStr (n : Int) : String := ⟨intChars n⟩

/-- Smallest exponent `k ≤ 40` with `d ∣ 10 ^ k`, when one exists.  The
denominators of the numbers handled by the program (binary floating-point
values) always divide a power of ten. -/
def decExp (d : Nat) : Option Nat :=
  (List.range 41).find? (fun k => 10 ^ k % d == 0)

/-- Fractional digits: `m` printed with exactly `k` digits, zero-padded. -/
def fracDigits (k m : Nat) : List Char :=
  List.replicate (k - (natChars m).length) '0' ++ natChars m

/-- `Number.prototype.toString` (character list) for the finite numbers the
program stores: integers print without a point, other decimal fractions
with one; a non-decimal rational (unreachable from JS doubles) falls back
to `num/den`. -/
def ratChars (q : Rat) : List Char :=
  match decExp q.den with
  | some 0 => intChars q.num
  | some (k + 1) =>
      let scaled : Nat := q.num.natAbs * (10 ^ (k + 1) / q.den)
      (if q.num < 0 then ['-'] else []) ++
        natChars (scaled / 10 ^ (k + 1)) ++ ['.'] ++ fracDigits (k + 1) (scaled % 10 ^ (k + 1))
  | none => intChars q.num ++ ['/'] ++ natChars q.den

/-- `Number.prototype.toString` as a string. -/
def ratToStr (q : Rat) : String := ⟨ratChars q⟩

/-- `Number.prototype.toFixed(d)`: sign taken before rounding, then the
magnitude rounded half-up to `d` fractional digits, always printed. -/
def toFixedStr (q : Rat) (d : Nat) : String :=
  let m : Nat := (⌊|q| * (10 : Rat) ^ d + 1 / 2⌋).toNat
  (if q < 0 then "-" else "") ++
    natToStr (m / 10 ^ d) ++ "." ++ ⟨fracDigits d (m % 10 ^ d)⟩

/-! ## JavaScript values and objects -/

/-- A JavaScript value as stored in the analysis records: a primitive or an
object given by its fields in insertion order.  A missing property is
represented by `Option.none` at use sites (JS `undefined`). -/
inductive JVal where
  | vStr (s : String)
  | vNum (q : Rat)
  | vBool (b : Bool)
  | vNull
  | vObj (fields : List (String × JVal))

/-- A JavaScript object: named fields in insertion order. -/
abbrev JObj := List (String × JVal)

/-- Property read `o[k]`: first field named `k`, `none` when absent. -/
def lookupJ (k : String) (o : JObj) : Option JVal :=
  (o.find? (fun p => p.1 == k)).map (fun p => p.2)

/-- JS truthiness of a value. -/
def JVal.truthy : JVal → Bool
  | .vStr s => !(s == "")
  | .vNum q => !(q == 0)
  | .vBool b => b
  | .vNull => false
  | .vObj _ => true

/-- Truthiness of the property `o.k` (missing property = `undefined` = falsy). -/
def truthyProp (o : JObj) (k : String) : Bool :=
  match lookupJ k o with
  | some v => v.truthy
  | none => false

/-- Strict equality `===` on the primitive values the program compares
(record ids); distinct object references compare unequal. -/
def jsEq : JVal → JVal → Bool
  | .vStr a, .vStr b => a == b
  | .vNum a, .vNum b => a == b
  | .vBool a, .vBool b => a == b
  | .vNull, .vNull => true
  | _, _ => false

/-- Strict equality where either side may be `undefined` (a missing property). -/
def jsEqOpt : Option JVal → Option JVal → Bool
  | some a, some b => jsEq a b
  | none, none => true
  | _, _ => false

/-- Property assignment `o[k] = v`: overwrites in place when the key exists,
otherwise appends the new field. -/
def setProp (o : JObj) (k : String) (v : JVal) : JObj :=
  if (lookupJ k o).isSome then o.map (fun p => if p.1 == k then (k, v) else p)
  else o ++ [(k, v)]

/-- Property read on an arbitrary value: only objects have fields. -/
def jGet (v : JVal) (k : String) : Option JVal :=
  match v with
  | .vObj fields => lookupJ k fields
  | _ => none

/-- `x?.toString()` for a present value `x`: `none` when `x` is `null`. -/
def jsToStr : JVal → Option String
  | .vStr s => some s
  | .vNum q => some (ratToStr q)
  | .vBool b => some (if b then "true" else "false")
  | .vNull => none
  | .vObj _ => some "[object Object]"

/-- Object spread `{ ...old, ...upd }`: keys of `old` in order (values
overridden by `upd` where both are present), then the keys of `upd` not in
`old`.  A nested object appearing in `upd` replaces the old value wholesale. -/
def jsMerge (old upd : JObj) : JObj :=
  old.map (fun p => (p.1, (lookupJ p.1 upd).getD p.2)) ++
    upd.filter (fun p => (lookupJ p.1 old).isNone)

/-- `Array.prototype.findIndex` (as an `Option`-valued index). -/
def findIdxA (p : α → Bool) : List α → Option Nat
  | [] => none
  | a :: l => if p a then some 0 else (findIdxA p l).map (· + 1)

/-- `Array.prototype.slice(start, fin)` with the ECMAScript index clamping. -/
def jsSlice (l : List α) (start fin : Int) : List α :=
  let len : Int := l.length
  let k := if start < 0 then max (len + start) 0 else min start len
  let f := if fin < 0 then max (len + fin) 0 else min fin len
  (l.drop k.toNat).take (f - k).toNat

/-! ## SoilStorage (src/unnamed/part_001) -/

/-- The browser localStorage as seen through the two keys the class uses:
`soilstory_analyses` and `soilstory_settings`, each holding its JSON-parsed
content when present.  `available` is the (stable) outcome of the
write-then-remove sentinel probe. -/
structure Store where
  available : Bool
  analyses : Option (List JObj)
  settings : Option JObj

/-- Errors surfaced by the storage operations.  `storageUnavailable` is the
`LocalStorage is not available` error thrown before the `try` block; the
others are the wrapped `Failed to ...` errors thrown from the `catch`
blocks (in particular `updateFailed` is what the caller sees when the inner
`Analysis not found` error is caught and re-thrown). -/
inductive SErr where
  | storageUnavailable
  | saveFailed
  | updateFailed
  | deleteFailed
  | clearFailed

/-- `isStorageAvailable()`: the sentinel write-then-remove probe. -/
def isStorageAvailable (s : Store) : Bool := s.available

/-- `maxStorageSize`: capacity of the analysis collection. -/
def maxStorageSize : Nat := 50

/-- `getAnalyses()`: empty when storage is unavailable or the key is absent. -/
def getAnalyses (s : Store) : List JObj :=
  if isStorageAvailable s = false then []
  else match s.analyses with
    | some l => l
    | none => []

/-- `getAnalysis(id)`: first record whose `id` is strictly equal to `id`. -/
def getAnalysis (s : Store) (id : JVal) : Option JObj :=
  (getAnalyses s).find? (fun a => jsEqOpt (lookupJ "id" a) (some id))

/-- One `saveAnalysis` call's inputs: the record passed by the caller plus
the oracle values produced by `generateId()` and `new Date().toISOString()`
(both depend on the clock and `Math.random`, not on the store). -/
structure SaveInput where
  record : JObj
  genId : String
  genTs : String

/-- The record as `saveAnalysis` persists it: an `id` is assigned when the
`id` property is falsy, then a `timestamp` likewise. -/
def savedRec (inp : SaveInput) : JObj :=
  let r1 := if truthyProp inp.record "id" then inp.record
            else setProp inp.record "id" (JVal.vStr inp.genId)
  if truthyProp r1 "timestamp" then r1
  else setProp r1 "timestamp" (JVal.vStr inp.genTs)

/-- `saveAnalysis(analysis)`: unavailable storage throws; otherwise the
record (with assigned id/timestamp) is unshifted onto the collection, which
is spliced down to `maxStorageSize` when it exceeds it, and re-persisted.
Returns `analysis.id`. -/
def saveAnalysis (s : Store) (inp : SaveInput) : Except SErr (Store × Option JVal) :=
  if isStorageAvailable s = false then .error .storageUnavailable
  else
    let r := savedRec inp
    let grown := r :: getAnalyses s
    let limited := if maxStorageSize < grown.length then grown.take maxStorageSize else grown
    .ok ({ s with analyses := some limited }, lookupJ "id" r)

/-- `updateAnalysis(id, updates)`: finds the record by strict id equality,
replaces it by the shallow spread merge `{ ...record, ...updates }` and
re-persists the whole collection; a missing record surfaces as
`updateFailed` (the caught and re-thrown `Analysis not found`). -/
def updateAnalysis (s : Store) (id : JVal) (u : JObj) : Except SErr (Store × Bool) :=
  if isStorageAvailable s = false then .error .storageUnavailable
  else
    let A := getAnalyses s
    match findIdxA (fun a => jsEqOpt (lookupJ "id" a) (some id)) A with
    | none => .error .updateFailed
    | some j => .ok ({ s with analyses := some (A.set j (jsMerge (A.getD j []) u)) }, true)

/-- `deleteAnalysis(id)`: filters out records with a strictly equal `id` and
re-persists; returns `true` whether or not anything matched. -/
def deleteAnalysis (s : Store) (id : JVal) : Except SErr (Store × Bool) :=
  if isStorageAvailable s = false then .error .storageUnavailable
  else
    let filtered := (getAnalyses s).filter (fun a => !(jsEqOpt (lookupJ "id" a) (some id)))
    .ok ({ s with analyses := some filtered }, true)

/-- `clearAnalyses()`: removes the analyses key only. -/
def clearAnalyses (s : Store) : Except SErr (Store × Bool) :=
  if isStorageAvailable s = false then .error .storageUnavailable
  else .ok ({ s with analyses := none }, true)

/-- Story branch of the `searchAnalyses` filter: a truthy story whose
lower-cased text contains the term.  A truthy non-string `story` would
raise a TypeError in the source; the theorems restrict to well-formed
records. -/
def storyHit (t : String) (a : JObj) : Bool :=
  match lookupJ "story" a with
  | some (JVal.vStr s) => !(s == "") && jsIncludes (lowerStr s) t
  | _ => false

/-- Location branch: a truthy location whose `lat?.toString()` or
`lon?.toString()` (not lower-cased) contains the term. -/
def locHit (t : String) (a : JObj) : Bool :=
  match lookupJ "location" a with
  | some lv => lv.truthy &&
      ((match (jGet lv "lat").bind jsToStr with
        | some str => jsIncludes str t
        | none => false) ||
       (match (jGet lv "lon").bind jsToStr with
        | some str => jsIncludes str t
        | none => false))
  | none => false

/-- Timestamp branch: a truthy timestamp whose lower-cased text contains
the term. -/
def tsHit (t : String) (a : JObj) : Bool :=
  match lookupJ "timestamp" a with
  | some (JVal.vStr s) => !(s == "") && jsIncludes (lowerStr s) t
  | _ => false

/-- The filter predicate of `searchAnalyses`, applied to the already
lower-cased and trimmed search term, with the source's branch order. -/
def recMatches (t : String) (a : JObj) : Bool :=
  storyHit t a || locHit t a || tsHit t a

/-- The search term: `query.toLowerCase().trim()`. -/
def searchTerm (q : String) : String := trimStr (lowerStr q)

/-- `searchAnalyses(query)`: a falsy or blank query returns the whole
collection, otherwise the records matching the term. -/
def searchAnalyses (s : Store) (q : String) : List JObj :=
  let analyses := getAnalyses s
  if q == "" || trimStr q == "" then analyses
  else analyses.filter (fun a => recMatches (searchTerm q) a)

/-- Result shape of `getAnalysesPaginated`. -/
structure Paginated where
  data : List JObj
  total : Int
  page : Int
  pageSize : Int
  totalPages : Int

/-- `getAnalysesPaginated(page, pageSize)`: slice of the collection with
1-based pages; `totalPages` is `Math.ceil(length / pageSize)` with exact
(real) division. -/
def getAnalysesPaginated (s : Store) (page pageSize : Int) : Paginated :=
  let analyses := getAnalyses s
  let startIndex := (page - 1) * pageSize
  let endIndex := startIndex + pageSize
  { data := jsSlice analyses startIndex endIndex
    total := analyses.length
    page := page
    pageSize := pageSize
    totalPages := ⌈(analyses.length : Rat) / (pageSize : Rat)⌉ }

/-- `getDefaultSettings()`. -/
def getDefaultSettings : JObj :=
  [("useLocation", JVal.vBool true), ("autoSave", JVal.vBool true),
   ("theme", JVal.vStr "light"), ("language", JVal.vStr "en"),
   ("notifications", JVal.vBool true)]

/-- `getSettings()`: defaults when unavailable, otherwise the defaults
shallow-merged with the persisted settings object. -/
def getSettings (s : Store) : JObj :=
  if isStorageAvailable s = false then getDefaultSettings
  else match s.settings with
    | some saved => jsMerge getDefaultSettings saved
    | none => jsMerge getDefaultSettings []

/-! ## Operation sequences over the store -/

/-- `saveAnalysis` as a state transformer (a thrown error leaves the
persisted state unchanged). -/
def saveStep (s : Store) (inp : SaveInput) : Store :=
  match saveAnalysis s inp with
  | .ok (s2, _) => s2
  | .error _ => s

/-- A sequence of `saveAnalysis` calls. -/
def runSaves : Store → List SaveInput → Store := List.foldl saveStep

/-- One mutating storage operation, with the oracle inputs it consumes. -/
inductive SOp where
  | saveOp (inp : SaveInput)
  | updateOp (id : JVal) (u : JObj)
  | deleteOp (id : JVal)
  | clearOp

/-- Applying one operation to the persisted state (errors change nothing). -/
def applyOp (s : Store) (op : SOp) : Store :=
  match op with
  | .saveOp inp => saveStep s inp
  | .updateOp id u =>
      match updateAnalysis s id u with
      | .ok (s2, _) => s2
      | .error _ => s
  | .deleteOp id =>
      match deleteAnalysis s id with
      | .ok (s2, _) => s2
      | .error _ => s
  | .clearOp =>
      match clearAnalyses s with
      | .ok (s2, _) => s2
      | .error _ => s

/-- A sequence of mutating operations. -/
def runOps : Store → List SOp → Store := List.foldl applyOp

/-- The `id` of a record when it is a string. -/
def recId (a : JObj) : Option String :=
  match lookupJ "id" a with
  | some (JVal.vStr i) => some i
  | _ => none

/-- The string ids of the stored records, in order. -/
def strIds (s : Store) : List String :=
  (getAnalyses s).filterMap recId

/-- Every stored record carries a string `id`. -/
def allStrIds (s : Store) : Bool :=
  (getAnalyses s).all (fun a => (recId a).isSome)

/-- The id-uniqueness invariant: all records have string ids and no id occurs
twice. -/
def GoodIds (s : Store) : Prop :=
  allStrIds s = true ∧ (strIds s).Nodup

/-- Hypotheses under which one operation keeps ids unique: a save either
supplies a (string) id not already stored or supplies no truthy id and its
generated id is fresh; an update does not touch the `id` field. -/
def opOK (s : Store) (op : SOp) : Bool :=
  match op with
  | .saveOp inp =>
      if truthyProp inp.record "id" then
        match lookupJ "id" inp.record with
        | some (JVal.vStr i) => !(decide (i ∈ strIds s))
        | _ => false
      else !(decide (inp.genId ∈ strIds s))
  | .updateOp _ u => (lookupJ "id" u).isNone
  | .deleteOp _ => true
  | .clearOp => true

/-- `opOK` holding at every step of a run. -/
def traceOK : Store → List SOp → Bool
  | _, [] => true
  | s, op :: rest => opOK s op && traceOK (applyOp s op) rest

/-! ## SoilAPI (src/frontend/static/js/api.js) -/

/-- `this.timeout` set by the `SoilAPI` constructor (milliseconds). -/
def soilAPITimeoutMs : Int := 30000

/-- The `timeout` entry of the `config` object built by `makeRequest`: the
spread `{..., timeout: this.timeout, ...options}` keeps the caller's value
when `options` has one and the constructor default otherwise.  (The value
is inert: the WHATWG `fetch` API has no `timeout` init option.) -/
def makeRequestConfigTimeout (optionsTimeout : Option Int) : Option Int :=
  match optionsTimeout with
  | some t => some t
  | none => some soilAPITimeoutMs

/-- `checkHealth` calls `fetch(url)` with no init object at all: its request
carries no timeout entry. -/
def checkHealthFetchTimeout : Option Int := none

/-- The analyze request in `analyzeSoil` calls `fetch` with an init object
holding only `method`, `headers` and `body`: no timeout entry. -/
def analyzeSoilFetchTimeout : Option Int := none

/-- The upload request in `uploadImage` passes only `method` and `body`. -/
def uploadImageFetchTimeout : Option Int := none

/-- `generateVideo` goes through `makeRequest` with options holding only
`method` and `body`. -/
def generateVideoConfigTimeout : Option Int := makeRequestConfigTimeout none

/-- `getHistory` goes through `makeRequest` with no options. -/
def getHistoryConfigTimeout : Option Int := makeRequestConfigTimeout none

/-- `Math.round`: round half toward positive infinity. -/
def jsRound (q : Rat) : Int := ⌊q + 1 / 2⌋

/-- `parseFloat(value.toFixed(d))`: the sign is taken before rounding, the
magnitude rounded half-up at `d` decimals. -/
def toFixedNum (q : Rat) (d : Nat) : Rat :=
  (if q < 0 then -1 else 1) * ((⌊|q| * (10 : Rat) ^ d + 1 / 2⌋ : Int) : Rat) / 10 ^ d

/-- `getRandomValue(min, max, decimals)` applied to one `Math.random()`
outcome `r ∈ [0, 1)`. -/
def getRandomValue (mn mx : Rat) (decimals : Nat) (r : Rat) : Rat :=
  let value := r * (mx - mn) + mn
  if decimals = 0 then (jsRound value : Int) else toFixedNum value decimals

/-- The fixed weather conditions of `getRandomWeather`. -/
def weatherConditions : List String :=
  ["Partly cloudy", "Sunny", "Overcast", "Light rain",
   "Clear skies", "Misty", "Light breeze", "Calm"]

/-- `getRandomWeather()` applied to one `Math.random()` outcome. -/
def getRandomWeather (r : Rat) : String :=
  weatherConditions.getD (⌊r * (weatherConditions.length : Rat)⌋).toNat ""

/-- A latitude/longitude pair as passed to the demo path. -/
structure GeoLoc where
  lat : Rat
  lon : Rat

/-- The fixed template stories of `generateDemoStory`. -/
def demoStories : List String :=
  ["Your soil shows excellent structure with balanced pH levels. The organic matter content suggests good fertility, making it ideal for most garden vegetables. Consider adding compost in the spring to maintain soil health.",
   "This soil sample indicates moderate fertility with room for improvement. The pH is slightly acidic, which is perfect for blueberries and rhododendrons. Adding lime can help balance the pH for other crops.",
   "Your soil demonstrates good drainage and moderate nutrient levels. The electrical conductivity suggests appropriate salt levels for healthy plant growth. Regular mulching will help maintain moisture retention.",
   "This soil has excellent potential for organic gardening. The organic matter content is promising, and the pH range supports a wide variety of plants. Consider crop rotation to optimize soil health."]

/-- `generateDemoStory(location)` applied to one `Math.random()` outcome. -/
def generateDemoStory (location : Option GeoLoc) (r : Rat) : String :=
  let story := demoStories.getD (⌊r * (demoStories.length : Rat)⌋).toNat ""
  match location with
  | some loc =>
      story ++ " Based on your location coordinates (" ++ toFixedStr loc.lat 4 ++ ", " ++
        toFixedStr loc.lon 4 ++
        "), this soil type is typical for your region and should support local native plants well."
  | none => story

/-- The five metrics under the demo record's `analysis` field. -/
structure SoilMetrics where
  pH : Rat
  OM : Rat
  P : Rat
  EC : Rat
  moisture : Rat

/-- The demo record's `weather` object. -/
structure DemoWeather where
  tempC : Rat
  humidity : Rat
  weather : String
  windSpeed : Rat

/-- The record resolved by `getDemoAnalysis`. -/
structure DemoAnalysisData where
  id : String
  imagePath : String
  analysis : SoilMetrics
  weather : Option DemoWeather
  story : String
  timestamp : String
  isDemo : Bool

/-- `getDemoAnalysis(imageFile, location)`: the oracles are the object URL of
the image, `Date.now()`, `new Date().toISOString()` and the stream `r` of
`Math.random()` outcomes in source evaluation order (the weather draws are
skipped when no location is supplied, so the story draw index shifts). -/
def getDemoAnalysis (imageRef : String) (location : Option GeoLoc) (nowMs : Int)
    (iso : String) (r : Nat → Rat) : DemoAnalysisData :=
  { id := "demo_" ++ intToStr nowMs
    imagePath := imageRef
    analysis :=
      { pH := getRandomValue 5.5 8.0 1 (r 0)
        OM := getRandomValue 1.0 5.0 1 (r 1)
        P := getRandomValue 10 50 0 (r 2)
        EC := getRandomValue 0.5 2.5 1 (r 3)
        moisture := getRandomValue 15 35 0 (r 4) }
    weather :=
      match location with
      | some _ =>
          some { tempC := getRandomValue 15 30 0 (r 5)
                 humidity := getRandomValue 40 80 0 (r 6)
                 weather := getRandomWeather (r 7)
                 windSpeed := getRandomValue 5 20 1 (r 8) }
      | none => none
    story := generateDemoStory location (r (if location.isSome then 9 else 5))
    timestamp := iso
    isDemo := true }

/-- `analyzeSoil(imageFile, location)` reduced to its remote-versus-fallback
decision: the probe outcome (`checkHealth`) and the outcome of the remote
round trip, had it been attempted, are inputs; `α` stands for the parsed
backend response. -/
def analyzeSoil (α : Type) (isHealthy : Bool) (remote : Except String α)
    (imageRef : String) (location : Option GeoLoc) (nowMs : Int) (iso : String)
    (r : Nat → Rat) : α ⊕ DemoAnalysisData :=
  if isHealthy = false then .inr (getDemoAnalysis imageRef location nowMs iso r)
  else
    match remote with
    | .ok a => .inl a
    | .error _ => .inr (getDemoAnalysis imageRef location nowMs iso r)

/-! ## Object and store lemmas -/

theorem lookupJ_nil (k : String) : lookupJ k [] = none := rfl

theorem lookupJ_cons (k : String) (p : String × JVal) (o : JObj) :
    lookupJ k (p :: o) = if p.1 == k then some p.2 else lookupJ k o := by
  by_cases h : (p.1 == k) = true
  · simp [lookupJ, List.find?_cons_of_pos _ h, h]
  · simp [lookupJ, List.find?_cons_of_neg _ h, h]

theorem lookupJ_append (k : String) (o₁ o₂ : JObj) :
    lookupJ k (o₁ ++ o₂) = (lookupJ k o₁).or (lookupJ k o₂) := by
  cases h : List.find? (fun p => p.1 == k) o₁ <;>
    simp [lookupJ, List.find?_append, h, Option.or]

theorem getAnalyses_mkStore (s : Store) (l : List JObj) (hav : s.available = true) :
    getAnalyses { s with analyses := some l } = l := by
  simp [getAnalyses, isStorageAvailable, hav]

theorem getAnalyses_saveStep (s : Store) (inp : SaveInput) (hav : s.available = true) :
    getAnalyses (saveStep s inp) = (savedRec inp :: getAnalyses s).take maxStorageSize := by
  unfold saveStep saveAnalysis
  rw [if_neg (by simp [isStorageAvailable, hav])]
  by_cases h : maxStorageSize < (savedRec inp :: getAnalyses s).length
  · simp [getAnalyses, isStorageAvailable, hav, h]
  · have hle : (savedRec inp :: getAnalyses s).length ≤ maxStorageSize := by omega
    simp [getAnalyses, isStorageAvailable, hav, h, List.take_of_length_le hle]

theorem available_saveStep (s : Store) (inp : SaveInput) :
    (saveStep s inp).available = s.available := by
  unfold saveStep saveAnalysis
  by_cases h : isStorageAvailable s = false <;> simp [h]

theorem take_append_take (X Y : List α) (n : Nat) :
    (X ++ Y.take n).take n = (X ++ Y).take n := by
  rw [List.take_append_eq_append_take, List.take_append_eq_append_take, List.take_take]
  congr 1
  simp [Nat.min_eq_left (Nat.sub_le n X.length)]

theorem getAnalyses_runSaves (inputs : List SaveInput) (s : Store)
    (hav : s.available = true) (hlen : (getAnalyses s).length ≤ maxStorageSize) :
    getAnalyses (runSaves s inputs) =
      ((inputs.map savedRec).reverse ++ getAnalyses s).take maxStorageSize := by
  induction inputs generalizing s with
  | nil => simp [runSaves, List.take_of_length_le hlen]
  | cons i rest ih =>
    have hav2 : (saveStep s i).available = true := by rw [available_saveStep]; exact hav
    have hstep := getAnalyses_saveStep s i hav
    have hlen2 : (getAnalyses (saveStep s i)).length ≤ maxStorageSize := by
      rw [hstep]; simp [List.length_take]
    have hrec := ih (saveStep s i) hav2 hlen2
    have hfold : getAnalyses (runSaves s (i :: rest)) = getAnalyses (runSaves (saveStep s i) rest) := by
      simp [runSaves]
    rw [hfold, hrec, hstep, take_append_take]
    have h2 : (rest.map savedRec).reverse ++ (savedRec i :: getAnalyses s) =
        ((i :: rest).map savedRec).reverse ++ getAnalyses s := by
      simp
    rw [h2]

/-- C1: for every sequence of saves whose count exceeds the capacity
(`maxStorageSize = 50`), the stored collection afterwards is exactly the 50
most recently saved records (with their assigned ids/timestamps), most
recent first; moreover each individual save inserts the new record at the
head and truncates the collection only at the tail. -/
theorem saveAnalysis_capacity (s : Store) (inputs : List SaveInput)
    (hav : s.available = true) (hn : maxStorageSize < inputs.length) :
    getAnalyses (runSaves s inputs) = (inputs.map savedRec).reverse.take maxStorageSize ∧
    (getAnalyses (runSaves s inputs)).length = maxStorageSize ∧
    (∀ st inp, st.available = true →
       getAnalyses (saveStep st inp) = (savedRec inp :: getAnalyses st).take maxStorageSize) := by
  have hmain : getAnalyses (runSaves s inputs) =
      (inputs.map savedRec).reverse.take maxStorageSize := by
    cases inputs with
    | nil => simp at hn
    | cons i rest =>
      have hav2 : (saveStep s i).available = true := by rw [available_saveStep]; exact hav
      have hlen2 : (getAnalyses (saveStep s i)).length ≤ maxStorageSize := by
        rw [getAnalyses_saveStep s i hav]; simp [List.length_take]
      have h1 : getAnalyses (runSaves s (i :: rest)) =
          ((rest.map savedRec).reverse ++ getAnalyses (saveStep s i)).take maxStorageSize := by
        have hrec := getAnalyses_runSaves rest (saveStep s i) hav2 hlen2
        simpa [runSaves] using hrec
      rw [h1, getAnalyses_saveStep s i hav, take_append_take]
      have h2 : (rest.map savedRec).reverse ++ (savedRec i :: getAnalyses s) =
          ((i :: rest).map savedRec).reverse ++ getAnalyses s := by
        simp
      rw [h2, List.take_append_of_le_length]
      simp only [List.length_reverse, List.length_map, List.length_cons] at hn ⊢
      omega
  refine ⟨hmain, ?_, fun st inp h => getAnalyses_saveStep st inp h⟩
  rw [hmain]
  simp only [List.length_take, List.length_reverse, List.length_map]
  omega

/-- Initial store for the C1 witness. -/
def c1Store : Store := { available := true, analyses := none, settings := none }

/-- Fifty-one saves for the C1 witness. -/
def c1Inputs : List SaveInput :=
  (List.range 51).map (fun n => { record := [], genId := natToStr n, genTs := "2024-01-01" })

theorem saveAnalysis_capacity_witness :
    getAnalyses (runSaves c1Store c1Inputs) =
      (c1Inputs.map savedRec).reverse.take maxStorageSize ∧
    (getAnalyses (runSaves c1Store c1Inputs)).length = maxStorageSize :=
  ⟨(saveAnalysis_capacity c1Store c1Inputs rfl (by decide)).1,
   (saveAnalysis_capacity c1Store c1Inputs rfl (by decide)).2.1⟩

/-- C3: when the storage probe fails, every mutating operation raises the
storage-unavailable error (none fails silently), while every read operation
returns an empty result instead of raising: the full collection, a lookup
by id, a search and a page of results are all empty. -/
theorem storageUnavailable_dichotomy (s : Store) (inp : SaveInput) (id : JVal)
    (u : JObj) (q : String) (page pageSize : Int)
    (h : isStorageAvailable s = false) :
    saveAnalysis s inp = .error .storageUnavailable ∧
    getAnalyses s = [] ∧
    updateAnalysis s id u = .error .storageUnavailable ∧
    deleteAnalysis s id = .error .storageUnavailable ∧
    clearAnalyses s = .error .storageUnavailable ∧
    getAnalysis s id = none ∧
    searchAnalyses s q = [] ∧
    (getAnalysesPaginated s page pageSize).data = [] := by
  have hA : getAnalyses s = [] := by simp [getAnalyses, h]
  refine ⟨?_, hA, ?_, ?_, ?_, ?_, ?_, ?_⟩
  · simp [saveAnalysis, h]
  · simp [updateAnalysis, h]
  · simp [deleteAnalysis, h]
  · simp [clearAnalyses, h]
  · simp [getAnalysis, hA]
  · simp [searchAnalyses, hA]
  · simp [getAnalysesPaginated, hA, jsSlice]

/-- Unavailable store for the C3 witness. -/
def c3Store : Store :=
  { available := false, analyses := some [[("id", JVal.vStr "a")]], settings := none }

theorem storageUnavailable_dichotomy_witness :
    saveAnalysis c3Store { record := [], genId := "g", genTs := "t" } =
      .error .storageUnavailable ∧
    getAnalyses c3Store = [] ∧
    updateAnalysis c3Store (JVal.vStr "a") [] = .error .storageUnavailable ∧
    deleteAnalysis c3Store (JVal.vStr "a") = .error .storageUnavailable ∧
    clearAnalyses c3Store = .error .storageUnavailable ∧
    getAnalysis c3Store (JVal.vStr "a") = none ∧
    searchAnalyses c3Store "soil" = [] ∧
    (getAnalysesPaginated c3Store 1 12).data = [] :=
  storageUnavailable_dichotomy c3Store { record := [], genId := "g", genTs := "t" }
    (JVal.vStr "a") [] "soil" 1 12 rfl

/-- C10: clearing the analyses removes only the analyses key; the settings
blob is untouched and reading the settings afterwards yields exactly what
it yielded before. -/
theorem clearAnalyses_settings_frame (s : Store) (h : isStorageAvailable s = true) :
    clearAnalyses s = .ok ({ s with analyses := none }, true) ∧
    ({ s with analyses := none } : Store).settings = s.settings ∧
    getSettings { s with analyses := none } = getSettings s := by
  refine ⟨?_, rfl, rfl⟩
  simp [clearAnalyses, h]

/-- Store for the C10 witness. -/
def c10Store : Store :=
  { available := true
    analyses := some [[("id", JVal.vStr "a")]]
    settings := some [("theme", JVal.vStr "dark")] }

theorem clearAnalyses_settings_frame_witness :
    clearAnalyses c10Store = .ok ({ c10Store with analyses := none }, true) ∧
    ({ c10Store with analyses := none } : Store).settings = c10Store.settings ∧
    getSettings { c10Store with analyses := none } = getSettings c10Store :=
  clearAnalyses_settings_frame c10Store rfl

/-! ## Shallow-merge lemmas -/

theorem lookupJ_mergeMap (old upd : JObj) (k : String) :
    lookupJ k (old.map (fun p => (p.1, (lookupJ p.1 upd).getD p.2))) =
      (lookupJ k old).map (fun w => (lookupJ k upd).getD w) := by
  induction old with
  | nil => rfl
  | cons p rest ih =>
    by_cases h : (p.1 == k) = true
    · have hk : p.1 = k := by simpa using h
      simp [List.map_cons, lookupJ_cons, h, hk]
    · simp [List.map_cons, lookupJ_cons, h, ih]

theorem lookupJ_mergeFilter (old upd : JObj) (k : String) (h : lookupJ k old = none) :
    lookupJ k (upd.filter (fun p => (lookupJ p.1 old).isNone)) = lookupJ k upd := by
  induction upd with
  | nil => rfl
  | cons p rest ih =>
    by_cases hk : (p.1 == k) = true
    · have hk2 : p.1 = k := by simpa using hk
      have hfp : (lookupJ p.1 old).isNone = true := by rw [hk2, h]; rfl
      simp [List.filter_cons, hfp, lookupJ_cons, hk]
    · cases hfp : (lookupJ p.1 old).isNone <;>
        simp [List.filter_cons, hfp, lookupJ_cons, hk, ih]

/-- Field lookup through the spread merge `{ ...old, ...upd }`: the value
from `upd` when the key is named there, the old value otherwise. -/
theorem lookupJ_jsMerge (old upd : JObj) (k : String) :
    lookupJ k (jsMerge old upd) = (lookupJ k upd).or (lookupJ k old) := by
  unfold jsMerge
  rw [lookupJ_append, lookupJ_mergeMap]
  cases ho : lookupJ k old with
  | some w =>
      cases hu : lookupJ k upd <;> simp [Option.or, Option.getD]
  | none =>
      rw [lookupJ_mergeFilter old upd k ho]
      cases hu : lookupJ k upd <;> simp [Option.or]

/-- C2: updating a stored record merges exactly the fields named in the
update object into that record (a nested object named there replaces the
old value wholesale): the collection keeps its length, every other record
is untouched, and in the updated record every field outside the update
object keeps its previous value. -/
theorem updateAnalysis_frame (s : Store) (id : JVal) (u : JObj) (j : Nat)
    (hav : isStorageAvailable s = true)
    (hfind : findIdxA (fun a => jsEqOpt (lookupJ "id" a) (some id)) (getAnalyses s) = some j) :
    updateAnalysis s id u =
      .ok
        ({ s with analyses := some ((getAnalyses s).set j (jsMerge ((getAnalyses s).getD j []) u)) },
         true) ∧
    ((getAnalyses s).set j (jsMerge ((getAnalyses s).getD j []) u)).length =
      (getAnalyses s).length ∧
    (∀ i2, i2 ≠ j →
       ((getAnalyses s).set j (jsMerge ((getAnalyses s).getD j []) u))[i2]? =
         (getAnalyses s)[i2]?) ∧
    (∀ k2, lookupJ k2 (jsMerge ((getAnalyses s).getD j []) u) =
       (lookupJ k2 u).or (lookupJ k2 ((getAnalyses s).getD j []))) := by
  refine ⟨?_, List.length_set _ _ _, ?_, fun k2 => lookupJ_jsMerge _ u k2⟩
  · have hav2 : s.available = true := hav
    simp [updateAnalysis, isStorageAvailable, hav2, hfind]
  · intro i2 h2
    exact List.getElem?_set_ne (fun he => h2 he.symm)

/-- Store for the C2 witness: one record with a story and a nested metrics
object. -/
def c2Store : Store :=
  { available := true
    analyses := some [[("id", JVal.vStr "a"), ("story", JVal.vStr "old"),
                       ("soil", JVal.vObj [("pH", JVal.vNum 7)])]]
    settings := none }

/-- Update object for the C2 witness. -/
def c2Upd : JObj := [("videoUrl", JVal.vStr "x")]

theorem updateAnalysis_frame_witness :
    updateAnalysis c2Store (JVal.vStr "a") c2Upd =
      .ok
        ({ c2Store with analyses := some ((getAnalyses c2Store).set 0 (jsMerge ((getAnalyses c2Store).getD 0 []) c2Upd)) },
         true) ∧
    lookupJ "videoUrl" (jsMerge ((getAnalyses c2Store).getD 0 []) c2Upd) =
      some (JVal.vStr "x") ∧
    lookupJ "story" (jsMerge ((getAnalyses c2Store).getD 0 []) c2Upd) =
      some (JVal.vStr "old") ∧
    lookupJ "soil" (jsMerge ((getAnalyses c2Store).getD 0 []) c2Upd) =
      some (JVal.vObj [("pH", JVal.vNum 7)]) := by
  have h := updateAnalysis_frame c2Store (JVal.vStr "a") c2Upd 0 rfl (by rfl)
  refine ⟨h.1, ?_, ?_, ?_⟩
  · exact (h.2.2.2 "videoUrl").trans rfl
  · exact (h.2.2.2 "story").trans rfl
  · exact (h.2.2.2 "soil").trans rfl

/-! ## Missing-record behaviour -/

theorem findIdxA_eq_none (p : α → Bool) (l : List α) (h : ∀ a ∈ l, p a = false) :
    findIdxA p l = none := by
  induction l with
  | nil => rfl
  | cons a rest ih =>
      have ha : p a = false := h a (by simp)
      simp [findIdxA, ha, ih (fun x hx => h x (by simp [hx]))]

/-- C6 counterexample: deleting an id that is not stored does not report a
missing-record error; on an (available) empty store, `deleteAnalysis`
returns plain success with the collection unchanged. -/
theorem deleteAnalysis_missing_counterexample :
    deleteAnalysis { available := true, analyses := some [], settings := none }
        (JVal.vStr "missing") =
      .ok ({ available := true, analyses := some [], settings := none }, true) := rfl

/-- C6 amended: deleting a missing id succeeds silently — the call returns
success and the stored collection is unchanged; only `getAnalysis` reports
the miss (not-found) and `updateAnalysis` raises for it. -/
theorem deleteAnalysis_missing_silent (s : Store) (id : JVal) (u : JObj)
    (hav : isStorageAvailable s = true)
    (hmiss : ∀ a ∈ getAnalyses s, jsEqOpt (lookupJ "id" a) (some id) = false) :
    deleteAnalysis s id = .ok ({ s with analyses := some (getAnalyses s) }, true) ∧
    getAnalyses { s with analyses := some (getAnalyses s) } = getAnalyses s ∧
    getAnalysis s id = none ∧
    updateAnalysis s id u = .error SErr.updateFailed := by
  refine ⟨?_, ?_, ?_, ?_⟩
  · have hfilter : (getAnalyses s).filter
        (fun a => !(jsEqOpt (lookupJ "id" a) (some id))) = getAnalyses s :=
      List.filter_eq_self.mpr (fun a ha => by simp [hmiss a ha])
    simp [deleteAnalysis, hav, hfilter]
  · exact getAnalyses_mkStore s _ hav
  · exact List.find?_eq_none.mpr (fun a ha => by simp [hmiss a ha])
  · have hnone := findIdxA_eq_none (fun a => jsEqOpt (lookupJ "id" a) (some id))
      (getAnalyses s) hmiss
    simp [updateAnalysis, hav, hnone]

/-- Store for the C6 witness: one record with id `a`. -/
def c6Store : Store :=
  { available := true
    analyses := some [[("id", JVal.vStr "a"), ("story", JVal.vStr "s")]]
    settings := none }

theorem deleteAnalysis_missing_silent_witness :
    deleteAnalysis c6Store (JVal.vStr "b") =
      .ok ({ c6Store with analyses := some (getAnalyses c6Store) }, true) ∧
    getAnalyses { c6Store with analyses := some (getAnalyses c6Store) } =
      getAnalyses c6Store ∧
    getAnalysis c6Store (JVal.vStr "b") = none ∧
    updateAnalysis c6Store (JVal.vStr "b") [] = .error SErr.updateFailed :=
  deleteAnalysis_missing_silent c6Store (JVal.vStr "b") [] rfl (by decide)

/-! ## Pagination lemmas -/

theorem jsSlice_nonneg (l : List α) (start fin : Int) (h0 : 0 ≤ start) (h1 : start ≤ fin) :
    jsSlice l start fin = (l.drop start.toNat).take (fin - start).toNat := by
  simp only [jsSlice]
  rw [if_neg (by omega), if_neg (by omega)]
  by_cases hs : start ≤ (l.length : Int)
  · rw [min_eq_left hs]
    by_cases hf : fin ≤ (l.length : Int)
    · rw [min_eq_left hf]
    · rw [min_eq_right (by omega)]
      have e1 : ((l.length : Int) - start).toNat = l.length - start.toNat := by omega
      have e2 : l.length - start.toNat ≤ (fin - start).toNat := by omega
      rw [e1, List.take_of_length_le (le_of_eq (List.length_drop _ _)),
        List.take_of_length_le (by rw [List.length_drop]; exact e2)]
  · rw [min_eq_right (by omega), min_eq_right (by omega)]
    rw [List.drop_eq_nil_of_le (by omega), List.drop_eq_nil_of_le (by omega)]
    simp

theorem ceil_div_eq_natCeilDiv (n : Nat) (b : Int) (hb : 1 ≤ b) :
    ⌈(n : Rat) / (b : Rat)⌉ = (((n + b.toNat - 1) / b.toNat : Nat) : Int) := by
  have hbm : b = ((b.toNat : Nat) : Int) := by omega
  set m := b.toNat with hm
  have hm1 : 1 ≤ m := by omega
  set k := (n + m - 1) / m with hk
  obtain ⟨r, hr, he⟩ : ∃ r, r < m ∧ n + m - 1 = m * k + r :=
    ⟨(n + m - 1) % m, Nat.mod_lt _ (by omega), by rw [hk]; exact (Nat.div_add_mod _ _).symm⟩
  have h1 : n ≤ m * k := by omega
  have h2 : m * k < n + m := by omega
  have hmq : (0 : Rat) < (m : Rat) := by exact_mod_cast (by omega : 0 < m)
  rw [hbm, Int.ceil_eq_iff]
  push_cast
  constructor
  · rw [lt_div_iff₀ hmq]
    have h2q : (m : Rat) * (k : Rat) < (n : Rat) + (m : Rat) := by exact_mod_cast h2
    nlinarith
  · rw [div_le_iff₀ hmq]
    have h1q : (n : Rat) ≤ (m : Rat) * (k : Rat) := by exact_mod_cast h1
    nlinarith

/-- C9: pagination is pure 1-based slicing over the collection: `data` is
the slice starting at `(page - 1) * pageSize` of length `pageSize`, `total`
is the collection length, `page`/`pageSize` are echoed, `totalPages` is the
ceiling of `total / pageSize`, and a page past the end yields an empty
`data` slice. -/
theorem getAnalysesPaginated_spec (s : Store) (page pageSize : Int)
    (hp : 1 ≤ page) (hps : 1 ≤ pageSize) :
    (getAnalysesPaginated s page pageSize).data =
      ((getAnalyses s).drop ((page - 1) * pageSize).toNat).take pageSize.toNat ∧
    (getAnalysesPaginated s page pageSize).total = (getAnalyses s).length ∧
    (getAnalysesPaginated s page pageSize).page = page ∧
    (getAnalysesPaginated s page pageSize).pageSize = pageSize ∧
    (getAnalysesPaginated s page pageSize).totalPages =
      ((((getAnalyses s).length + pageSize.toNat - 1) / pageSize.toNat : Nat) : Int) ∧
    (((getAnalyses s).length : Int) ≤ (page - 1) * pageSize →
       (getAnalysesPaginated s page pageSize).data = []) := by
  have hd : (getAnalysesPaginated s page pageSize).data =
      ((getAnalyses s).drop ((page - 1) * pageSize).toNat).take pageSize.toNat := by
    show jsSlice (getAnalyses s) ((page - 1) * pageSize) ((page - 1) * pageSize + pageSize) = _
    rw [jsSlice_nonneg _ _ _ (mul_nonneg (by omega) (by omega)) (by omega)]
    congr 1
    omega
  refine ⟨hd, rfl, rfl, rfl, ?_, ?_⟩
  · show ⌈((getAnalyses s).length : Rat) / (pageSize : Rat)⌉ = _
    exact ceil_div_eq_natCeilDiv _ pageSize hps
  · intro hle
    rw [hd, List.drop_eq_nil_of_le (by omega)]
    simp

/-- Five-record store for the C9 witness. -/
def c9Store : Store :=
  { available := true
    analyses := some (List.replicate 5 [("id", JVal.vStr "r")])
    settings := none }

theorem getAnalysesPaginated_spec_witness :
    (getAnalysesPaginated c9Store 3 12).data = [] ∧
    (getAnalysesPaginated c9Store 3 12).total = 5 ∧
    (getAnalysesPaginated c9Store 3 12).totalPages = 1 := by
  have h := getAnalysesPaginated_spec c9Store 3 12 (by norm_num) (by norm_num)
  refine ⟨?_, ?_, ?_⟩
  · rw [h.1]; rfl
  · rw [h.2.1]; rfl
  · rw [h.2.2.2.2.1]; rfl

/-! ## Demo-analysis range lemmas -/

theorem jsRound_bounds (q : Rat) (a b : Int) (ha : (a : Rat) ≤ q) (hb : q < (b : Rat)) :
    a ≤ jsRound q ∧ jsRound q ≤ b := by
  unfold jsRound
  constructor
  · exact Int.le_floor.mpr (by linarith)
  · have h := Int.floor_le (q + 1 / 2)
    have hlt : ⌊q + 1 / 2⌋ < b + 1 := by
      have hq : ((⌊q + 1 / 2⌋ : Int) : Rat) < ((b + 1 : Int) : Rat) := by push_cast; linarith
      exact_mod_cast hq
    omega

theorem toFixedNum_bounds (q : Rat) (d : Nat) (a b : Int)
    (h0 : 0 ≤ q) (ha : (a : Rat) ≤ q * 10 ^ d) (hb : q * 10 ^ d < (b : Rat)) :
    (a : Rat) / 10 ^ d ≤ toFixedNum q d ∧ toFixedNum q d ≤ (b : Rat) / 10 ^ d := by
  have habs : |q| = q := abs_of_nonneg h0
  have hnotlt : ¬ q < 0 := not_lt.mpr h0
  have hub : ⌊q * 10 ^ d + 1 / 2⌋ ≤ b := by
    have h := Int.floor_le (q * 10 ^ d + 1 / 2)
    have hq : ((⌊q * 10 ^ d + 1 / 2⌋ : Int) : Rat) < ((b + 1 : Int) : Rat) := by
      push_cast; linarith
    have hlt : ⌊q * 10 ^ d + 1 / 2⌋ < b + 1 := by exact_mod_cast hq
    omega
  have hlb : a ≤ ⌊q * 10 ^ d + 1 / 2⌋ := Int.le_floor.mpr (by linarith)
  have hpow : (0 : Rat) < 10 ^ d := by positivity
  unfold toFixedNum
  rw [if_neg hnotlt, habs, one_mul]
  constructor
  · gcongr
  · gcongr

theorem getRandomValue_zero (mn mx r : Rat) :
    getRandomValue mn mx 0 r = ((jsRound (r * (mx - mn) + mn) : Int) : Rat) := rfl

theorem getRandomValue_one (mn mx r : Rat) :
    getRandomValue mn mx 1 r = toFixedNum (r * (mx - mn) + mn) 1 := rfl

/-- C4: whenever the liveness probe resolves false, `analyzeSoil` resolves
to the synthetic demo record; that record is flagged `isDemo = true`,
carries all five soil metrics each inside its documented range, and carries
a weather object exactly when a location was supplied. -/
theorem analyzeSoil_demo_ranges (α : Type) (remote : Except String α)
    (imageRef : String) (location : Option GeoLoc) (nowMs : Int) (iso : String)
    (r : Nat → Rat) (hr : ∀ i, 0 ≤ r i ∧ r i < 1) :
    analyzeSoil α false remote imageRef location nowMs iso r =
      .inr (getDemoAnalysis imageRef location nowMs iso r) ∧
    (getDemoAnalysis imageRef location nowMs iso r).isDemo = true ∧
    ((5.5 : Rat) ≤ (getDemoAnalysis imageRef location nowMs iso r).analysis.pH ∧
      (getDemoAnalysis imageRef location nowMs iso r).analysis.pH ≤ 8.0) ∧
    ((1.0 : Rat) ≤ (getDemoAnalysis imageRef location nowMs iso r).analysis.OM ∧
      (getDemoAnalysis imageRef location nowMs iso r).analysis.OM ≤ 5.0) ∧
    ((10 : Rat) ≤ (getDemoAnalysis imageRef location nowMs iso r).analysis.P ∧
      (getDemoAnalysis imageRef location nowMs iso r).analysis.P ≤ 50) ∧
    ((0.5 : Rat) ≤ (getDemoAnalysis imageRef location nowMs iso r).analysis.EC ∧
      (getDemoAnalysis imageRef location nowMs iso r).analysis.EC ≤ 2.5) ∧
    ((15 : Rat) ≤ (getDemoAnalysis imageRef location nowMs iso r).analysis.moisture ∧
      (getDemoAnalysis imageRef location nowMs iso r).analysis.moisture ≤ 35) ∧
    ((getDemoAnalysis imageRef location nowMs iso r).weather.isSome ↔ location.isSome) := by
  refine ⟨rfl, rfl, ?_, ?_, ?_, ?_, ?_, ?_⟩
  · have h := toFixedNum_bounds (r 0 * (8.0 - 5.5) + 5.5) 1 55 80
      (by nlinarith [(hr 0).1, (hr 0).2])
      (by push_cast; nlinarith [(hr 0).1, (hr 0).2])
      (by push_cast; nlinarith [(hr 0).1, (hr 0).2])
    push_cast at h
    simp only [getDemoAnalysis, getRandomValue_one]
    exact ⟨le_trans (by norm_num) h.1, le_trans h.2 (by norm_num)⟩
  · have h := toFixedNum_bounds (r 1 * (5.0 - 1.0) + 1.0) 1 10 50
      (by nlinarith [(hr 1).1, (hr 1).2])
      (by push_cast; nlinarith [(hr 1).1, (hr 1).2])
      (by push_cast; nlinarith [(hr 1).1, (hr 1).2])
    push_cast at h
    simp only [getDemoAnalysis, getRandomValue_one]
    exact ⟨le_trans (by norm_num) h.1, le_trans h.2 (by norm_num)⟩
  · have h := jsRound_bounds (r 2 * (50 - 10) + 10) 10 50
      (by push_cast; nlinarith [(hr 2).1, (hr 2).2])
      (by push_cast; nlinarith [(hr 2).1, (hr 2).2])
    simp only [getDemoAnalysis, getRandomValue_zero]
    exact ⟨by exact_mod_cast h.1, by exact_mod_cast h.2⟩
  · have h := toFixedNum_bounds (r 3 * (2.5 - 0.5) + 0.5) 1 5 25
      (by nlinarith [(hr 3).1, (hr 3).2])
      (by push_cast; nlinarith [(hr 3).1, (hr 3).2])
      (by push_cast; nlinarith [(hr 3).1, (hr 3).2])
    push_cast at h
    simp only [getDemoAnalysis, getRandomValue_one]
    exact ⟨le_trans (by norm_num) h.1, le_trans h.2 (by norm_num)⟩
  · have h := jsRound_bounds (r 4 * (35 - 15) + 15) 15 35
      (by push_cast; nlinarith [(hr 4).1, (hr 4).2])
      (by push_cast; nlinarith [(hr 4).1, (hr 4).2])
    simp only [getDemoAnalysis, getRandomValue_zero]
    exact ⟨by exact_mod_cast h.1, by exact_mod_cast h.2⟩
  · cases location <;> simp [getDemoAnalysis]

/-- Constant `Math.random` stream for the C4 witness. -/
def c4Rand : Nat → Rat := fun _ => 1 / 2

/-- Location for the C4 witness. -/
def c4Loc : Option GeoLoc := some { lat := 40.7128, lon := -74.006 }

/-- Demo record produced in the C4 witness. -/
def c4Demo : DemoAnalysisData :=
  getDemoAnalysis "blob:demo" c4Loc 1700000000000 "2024-01-01T00:00:00.000Z" c4Rand

theorem analyzeSoil_demo_ranges_witness :
    analyzeSoil Unit false (Except.error "down") "blob:demo" c4Loc 1700000000000
        "2024-01-01T00:00:00.000Z" c4Rand = .inr c4Demo ∧
    c4Demo.isDemo = true ∧
    ((5.5 : Rat) ≤ c4Demo.analysis.pH ∧ c4Demo.analysis.pH ≤ 8.0) ∧
    ((1.0 : Rat) ≤ c4Demo.analysis.OM ∧ c4Demo.analysis.OM ≤ 5.0) ∧
    ((10 : Rat) ≤ c4Demo.analysis.P ∧ c4Demo.analysis.P ≤ 50) ∧
    ((0.5 : Rat) ≤ c4Demo.analysis.EC ∧ c4Demo.analysis.EC ≤ 2.5) ∧
    ((15 : Rat) ≤ c4Demo.analysis.moisture ∧ c4Demo.analysis.moisture ≤ 35) ∧
    (c4Demo.weather.isSome ↔ c4Loc.isSome) :=
  analyzeSoil_demo_ranges Unit (Except.error "down") "blob:demo" c4Loc 1700000000000
    "2024-01-01T00:00:00.000Z" c4Rand
    (fun _ => ⟨by norm_num [c4Rand], by norm_num [c4Rand]⟩)

/-- C7 (supporting theorem for a code bug): of the gateway's network
operations, only the two that go through `makeRequest` (video, history)
even carry a `timeout` entry — the constructor default of 30000 ms — while
the probe (`checkHealth`), the analyze upload and the image upload call
`fetch` with no timeout entry at all.  (The `timeout` entry itself is not a
standard `fetch` option, so even where present it does not bound the
request.) -/
theorem fetch_timeout_configs :
    checkHealthFetchTimeout = none ∧
    analyzeSoilFetchTimeout = none ∧
    uploadImageFetchTimeout = none ∧
    generateVideoConfigTimeout = some soilAPITimeoutMs ∧
    getHistoryConfigTimeout = some soilAPITimeoutMs ∧
    soilAPITimeoutMs = 30000 :=
  ⟨rfl, rfl, rfl, rfl, rfl, rfl⟩

/-! ## Id-uniqueness lemmas -/

theorem lookupJ_overwriteMap (o : JObj) (k : String) (v : JVal) (k2 : String) :
    lookupJ k2 (o.map (fun p => if p.1 == k then (k, v) else p)) =
      if k2 = k then (if (lookupJ k o).isSome then some v else none)
      else lookupJ k2 o := by
  induction o with
  | nil => by_cases hk : k2 = k <;> simp [lookupJ, hk]
  | cons p rest ih =>
    by_cases hpk : (p.1 == k) = true
    · have hp : p.1 = k := by simpa using hpk
      by_cases hk : k2 = k
      · subst hk
        simp only [List.map_cons, lookupJ_cons]
        simp [hp]
      · have hkk : ¬ k = k2 := fun he => hk he.symm
        simp only [List.map_cons, lookupJ_cons]
        simp [hp, hk, hkk] at ih ⊢
        exact ih
    · have hp : ¬ p.1 = k := by simpa using hpk
      by_cases hk : k2 = k
      · subst hk
        simp only [List.map_cons, lookupJ_cons]
        simp [hp] at ih ⊢
        exact ih
      · by_cases hc : p.1 = k2
        · simp only [List.map_cons, lookupJ_cons]
          simp [hp, hk, hc]
        · simp only [List.map_cons, lookupJ_cons]
          simp [hp, hk, hc] at ih ⊢
          exact ih

theorem lookupJ_setProp (o : JObj) (k : String) (v : JVal) (k2 : String) :
    lookupJ k2 (setProp o k v) = if k2 = k then some v else lookupJ k2 o := by
  unfold setProp
  by_cases hs : (lookupJ k o).isSome
  · rw [if_pos hs, lookupJ_overwriteMap]
    by_cases hk : k2 = k <;> simp [hk, hs]
  · rw [if_neg hs, lookupJ_append]
    by_cases hk : k2 = k
    · subst hk
      have h0 : lookupJ k2 o = none := Option.not_isSome_iff_eq_none.mp hs
      rw [h0]
      simp [lookupJ_cons]
    · have hne : (k == k2) = false := by
        simpa using fun he => hk he.symm
      simp [hk, lookupJ_cons, hne, lookupJ_nil]

theorem savedRec_id (inp : SaveInput) :
    lookupJ "id" (savedRec inp) =
      if truthyProp inp.record "id" then lookupJ "id" inp.record
      else some (JVal.vStr inp.genId) := by
  simp only [savedRec]
  by_cases h1 : truthyProp inp.record "id"
  · rw [if_pos h1, if_pos h1]
    by_cases h2 : truthyProp inp.record "timestamp"
    · rw [if_pos h2]
    · rw [if_neg h2, lookupJ_setProp]
      simp
  · rw [if_neg h1, if_neg h1]
    by_cases h2 : truthyProp (setProp inp.record "id" (JVal.vStr inp.genId)) "timestamp"
    · rw [if_pos h2, lookupJ_setProp]
      simp
    · rw [if_neg h2, lookupJ_setProp, lookupJ_setProp]
      simp

theorem recId_savedRec_ok (s : Store) (inp : SaveInput)
    (hok : opOK s (SOp.saveOp inp) = true) :
    ∃ nid, recId (savedRec inp) = some nid ∧ nid ∉ strIds s := by
  simp only [opOK] at hok
  by_cases ht : truthyProp inp.record "id"
  · rw [if_pos ht] at hok
    cases hl : lookupJ "id" inp.record with
    | none => rw [hl] at hok; exact absurd hok (by simp)
    | some v =>
      rw [hl] at hok
      cases v with
      | vStr i =>
          refine ⟨i, ?_, ?_⟩
          · unfold recId
            rw [savedRec_id, if_pos ht, hl]
          · simpa using hok
      | vNum q => exact absurd hok (by simp)
      | vBool b => exact absurd hok (by simp)
      | vNull => exact absurd hok (by simp)
      | vObj fs => exact absurd hok (by simp)
  · rw [if_neg ht] at hok
    refine ⟨inp.genId, ?_, by simpa using hok⟩
    unfold recId
    rw [savedRec_id, if_neg ht]

theorem saveStep_unavailable (s : Store) (inp : SaveInput) (hf : s.available = false) :
    saveStep s inp = s := by
  unfold saveStep saveAnalysis
  rw [if_pos (show isStorageAvailable s = false from hf)]

theorem goodIds_saveStep (s : Store) (inp : SaveInput)
    (hg : GoodIds s) (hok : opOK s (SOp.saveOp inp) = true) :
    GoodIds (saveStep s inp) := by
  by_cases hav : s.available = true
  · obtain ⟨nid, hnid, hfresh⟩ := recId_savedRec_ok s inp hok
    have hA := getAnalyses_saveStep s inp hav
    have hsub : ((savedRec inp :: getAnalyses s).take maxStorageSize).Sublist
        (savedRec inp :: getAnalyses s) := List.take_sublist _ _
    constructor
    · unfold allStrIds
      rw [hA, List.all_eq_true]
      intro a ha
      rcases List.mem_cons.mp (hsub.subset ha) with rfl | hmem
      · simp [hnid]
      · exact List.all_eq_true.mp hg.1 a hmem
    · unfold strIds
      rw [hA]
      have hbig : (List.filterMap recId (savedRec inp :: getAnalyses s)).Nodup := by
        rw [List.filterMap_cons, hnid]
        exact List.nodup_cons.mpr ⟨hfresh, hg.2⟩
      exact hbig.sublist (hsub.filterMap recId)
  · have hf : s.available = false := by revert hav; cases s.available <;> simp
    rw [saveStep_unavailable s inp hf]
    exact hg

theorem findIdxA_lt_length {p : α → Bool} {l : List α} {j : Nat}
    (h : findIdxA p l = some j) : j < l.length := by
  induction l generalizing j with
  | nil => simp [findIdxA] at h
  | cons a rest ih =>
    by_cases hp : p a = true
    · simp [findIdxA, hp] at h
      simp [List.length_cons]
      omega
    · simp [findIdxA, hp] at h
      obtain ⟨j0, h0, hj⟩ := h
      have := ih h0
      simp [List.length_cons]
      omega

theorem filterMap_recId_set (A : List JObj) (j : Nat) (x : JObj)
    (hj : j < A.length) (hx : recId x = recId A[j]) :
    List.filterMap recId (A.set j x) = List.filterMap recId A := by
  rw [List.set_eq_take_append_cons_drop, if_pos hj]
  conv_rhs => rw [← List.take_append_drop j A, List.drop_eq_getElem_cons hj]
  rw [List.filterMap_append, List.filterMap_append, List.filterMap_cons, List.filterMap_cons, hx]

theorem all_recId_set (A : List JObj) (j : Nat) (x : JObj)
    (hj : j < A.length) (hx : (recId x).isSome = (recId A[j]).isSome) :
    (A.set j x).all (fun a => (recId a).isSome) =
      A.all (fun a => (recId a).isSome) := by
  rw [List.set_eq_take_append_cons_drop, if_pos hj]
  conv_rhs => rw [← List.take_append_drop j A, List.drop_eq_getElem_cons hj]
  rw [List.all_append, List.all_append, List.all_cons, List.all_cons, hx]

theorem avail_false_of_not_true {b : Bool} (h : ¬ b = true) : b = false := by
  revert h; cases b <;> simp

theorem goodIds_update (s : Store) (id : JVal) (u : JObj)
    (hg : GoodIds s) (hu : (lookupJ "id" u).isNone = true) :
    GoodIds (applyOp s (SOp.updateOp id u)) := by
  show GoodIds (match updateAnalysis s id u with | .ok (s2, _) => s2 | .error _ => s)
  by_cases hav : s.available = true
  · cases hfind : findIdxA (fun a => jsEqOpt (lookupJ "id" a) (some id)) (getAnalyses s) with
    | none =>
        have heq : updateAnalysis s id u = .error SErr.updateFailed := by
          simp [updateAnalysis, isStorageAvailable, hav, hfind]
        simp only [heq]
        exact hg
    | some j =>
        have hj : j < (getAnalyses s).length := findIdxA_lt_length hfind
        have heq : updateAnalysis s id u =
            .ok
              ({ s with analyses := some ((getAnalyses s).set j (jsMerge ((getAnalyses s).getD j []) u)) },
               true) := by
          simp [updateAnalysis, isStorageAvailable, hav, hfind]
        simp only [heq]
        have hid : recId (jsMerge ((getAnalyses s).getD j []) u) =
            recId ((getAnalyses s).getD j []) := by
          unfold recId
          rw [lookupJ_jsMerge, Option.isNone_iff_eq_none.mp hu]
          simp [Option.or]
        rw [List.getD_eq_getElem _ _ hj] at hid
        constructor
        · unfold allStrIds
          rw [getAnalyses_mkStore s _ hav,
            all_recId_set _ _ _ hj (by rw [List.getD_eq_getElem _ _ hj, hid])]
          exact hg.1
        · unfold strIds
          rw [getAnalyses_mkStore s _ hav,
            filterMap_recId_set _ _ _ hj (by rw [List.getD_eq_getElem _ _ hj, hid])]
          exact hg.2
  · have hf : s.available = false := avail_false_of_not_true hav
    have heq : updateAnalysis s id u = .error SErr.storageUnavailable := by
      simp [updateAnalysis, isStorageAvailable, hf]
    simp only [heq]
    exact hg

theorem goodIds_delete (s : Store) (id : JVal) (hg : GoodIds s) :
    GoodIds (applyOp s (SOp.deleteOp id)) := by
  show GoodIds (match deleteAnalysis s id with | .ok (s2, _) => s2 | .error _ => s)
  by_cases hav : s.available = true
  · have heq : deleteAnalysis s id =
        .ok
          ({ s with analyses := some ((getAnalyses s).filter (fun a => !(jsEqOpt (lookupJ "id" a) (some id)))) },
           true) := by
      simp [deleteAnalysis, isStorageAvailable, hav]
    simp only [heq]
    constructor
    · unfold allStrIds
      rw [getAnalyses_mkStore s _ hav, List.all_eq_true]
      intro a ha
      exact List.all_eq_true.mp hg.1 a (List.mem_filter.mp ha).1
    · unfold strIds
      rw [getAnalyses_mkStore s _ hav]
      exact hg.2.sublist ((List.filter_sublist _).filterMap recId)
  · have hf : s.available = false := avail_false_of_not_true hav
    have heq : deleteAnalysis s id = .error SErr.storageUnavailable := by
      simp [deleteAnalysis, isStorageAvailable, hf]
    simp only [heq]
    exact hg

theorem getAnalyses_clearStore (s : Store) : getAnalyses { s with analyses := none } = [] := by
  unfold getAnalyses isStorageAvailable
  by_cases h : s.available = false <;> simp [h]

theorem goodIds_clear (s : Store) (hg : GoodIds s) : GoodIds (applyOp s SOp.clearOp) := by
  show GoodIds (match clearAnalyses s with | .ok (s2, _) => s2 | .error _ => s)
  by_cases hav : s.available = true
  · have heq : clearAnalyses s = .ok ({ s with analyses := none }, true) := by
      simp [clearAnalyses, isStorageAvailable, hav]
    simp only [heq]
    constructor
    · unfold allStrIds
      rw [getAnalyses_clearStore]
      rfl
    · unfold strIds
      rw [getAnalyses_clearStore]
      exact List.nodup_nil
  · have hf : s.available = false := avail_false_of_not_true hav
    have heq : clearAnalyses s = .error SErr.storageUnavailable := by
      simp [clearAnalyses, isStorageAvailable, hf]
    simp only [heq]
    exact hg

/-- C5 amended: the id-uniqueness invariant (every stored record has a
string id, and no id occurs twice) is preserved by every sequence of
save/update/delete/clear operations, provided each save either supplies an
id not already stored or supplies no truthy id with a fresh generated id,
and no update names the `id` field — `saveAnalysis` itself performs no
duplicate check, so the hypotheses are necessary. -/
theorem goodIds_preserved (s : Store) (ops : List SOp)
    (hg : GoodIds s) (ht : traceOK s ops = true) :
    GoodIds (runOps s ops) := by
  induction ops generalizing s with
  | nil => exact hg
  | cons op rest ih =>
    simp only [traceOK, Bool.and_eq_true] at ht
    have hstep : GoodIds (applyOp s op) := by
      cases op with
      | saveOp inp => exact goodIds_saveStep s inp hg ht.1
      | updateOp id u => exact goodIds_update s id u hg ht.1
      | deleteOp id => exact goodIds_delete s id hg
      | clearOp => exact goodIds_clear s hg
    have hfold : runOps s (op :: rest) = runOps (applyOp s op) rest := by
      simp [runOps]
    rw [hfold]
    exact ih (applyOp s op) hstep ht.2

/-- Empty available store for the C5 development. -/
def c5Store : Store := { available := true, analyses := some [], settings := none }

/-- Two saves that both carry the explicit id `x`. -/
def c5DupOps : List SOp :=
  [SOp.saveOp { record := [("id", JVal.vStr "x")], genId := "g1", genTs := "t1" },
   SOp.saveOp { record := [("id", JVal.vStr "x")], genId := "g2", genTs := "t2" }]

/-- C5 counterexample: saving a record that carries an id already present
in the collection is accepted unchecked, after which two stored records
share the id `x`. -/
theorem save_duplicate_id_counterexample :
    (getAnalyses (runOps c5Store c5DupOps)).map (lookupJ "id") =
      [some (JVal.vStr "x"), some (JVal.vStr "x")] := rfl

/-- A well-behaved trace for the C5 witness: one save with a generated id,
one save with a fresh explicit id, an update that does not touch `id`, and
a delete. -/
def c5Ops : List SOp :=
  [SOp.saveOp { record := [("story", JVal.vStr "first")], genId := "id1", genTs := "t1" },
   SOp.saveOp { record := [("id", JVal.vStr "id2")], genId := "g", genTs := "t2" },
   SOp.updateOp (JVal.vStr "id1") [("videoUrl", JVal.vStr "v")],
   SOp.deleteOp (JVal.vStr "id2")]

theorem goodIds_preserved_witness : GoodIds (runOps c5Store c5Ops) :=
  goodIds_preserved c5Store c5Ops ⟨rfl, List.nodup_nil⟩ (by decide)

/-! ## Search lemmas -/

theorem lowerChar_digitChar (m : Nat) : lowerChar (digitChar m) = digitChar m := by
  unfold digitChar
  split_ifs <;> decide

theorem lowerChar_natDigits (fuel n : Nat) :
    ∀ c ∈ natDigits fuel n, lowerChar c = c := by
  induction fuel generalizing n with
  | zero => simp [natDigits]
  | succ f ih =>
    intro c hc
    simp only [natDigits] at hc
    by_cases h : n < 10
    · rw [if_pos h] at hc
      simp only [List.mem_singleton] at hc
      subst hc
      exact lowerChar_digitChar n
    · rw [if_neg h] at hc
      rcases List.mem_append.mp hc with h1 | h2
      · exact ih (n / 10) c h1
      · simp only [List.mem_singleton] at h2
        subst h2
        exact lowerChar_digitChar (n % 10)

theorem lowerChar_natChars (n : Nat) : ∀ c ∈ natChars n, lowerChar c = c :=
  lowerChar_natDigits (n + 1) n

theorem lowerChar_intChars (n : Int) : ∀ c ∈ intChars n, lowerChar c = c := by
  intro c hc
  unfold intChars at hc
  rcases List.mem_append.mp hc with h1 | h2
  · by_cases hn : n < 0
    · rw [if_pos hn] at h1
      simp only [List.mem_singleton] at h1
      subst h1
      decide
    · rw [if_neg hn] at h1
      simp at h1
  · exact lowerChar_natChars n.natAbs c h2

theorem lowerChar_fracDigits (k m : Nat) : ∀ c ∈ fracDigits k m, lowerChar c = c := by
  intro c hc
  unfold fracDigits at hc
  rcases List.mem_append.mp hc with h1 | h2
  · rw [List.eq_of_mem_replicate h1]
    decide
  · exact lowerChar_natChars m c h2

theorem lowerChar_ratChars (q : Rat) : ∀ c ∈ ratChars q, lowerChar c = c := by
  intro c hc
  unfold ratChars at hc
  cases hde : decExp q.den with
  | none =>
    rw [hde] at hc
    rcases List.mem_append.mp hc with h1 | h2
    · rcases List.mem_append.mp h1 with h3 | h4
      · exact lowerChar_intChars q.num c h3
      · simp only [List.mem_singleton] at h4
        subst h4
        decide
    · exact lowerChar_natChars q.den c h2
  | some k =>
    cases k with
    | zero =>
      rw [hde] at hc
      exact lowerChar_intChars q.num c hc
    | succ k2 =>
      rw [hde] at hc
      simp only at hc
      rcases List.mem_append.mp hc with h1 | h2
      · rcases List.mem_append.mp h1 with h3 | h4
        · rcases List.mem_append.mp h3 with h5 | h6
          · by_cases hn : q.num < 0
            · rw [if_pos hn] at h5
              simp only [List.mem_singleton] at h5
              subst h5
              decide
            · rw [if_neg hn] at h5
              simp at h5
          · exact lowerChar_natChars _ c h6
        · simp only [List.mem_singleton] at h4
          subst h4
          decide
      · exact lowerChar_fracDigits _ _ c h2

theorem lowerStr_ratToStr (q : Rat) : lowerStr (ratToStr q) = ratToStr q := by
  unfold lowerStr ratToStr
  exact congrArg String.mk
    ((List.map_congr_left (fun c hc => lowerChar_ratChars q c hc)).trans (List.map_id _))

theorem jsIncludes_empty (t : String) (ht : t ≠ "") : jsIncludes "" t = false := by
  unfold jsIncludes
  cases hd : t.data with
  | nil => exact absurd (String.ext (hd.trans rfl)) ht
  | cons c l => simp [hd, List.isPrefixOf]

/-- Well-formed optional string field: absent, `null`, or a string (the
shapes the app stores; a truthy non-string would raise in the source). -/
def wfStrField (k : String) (a : JObj) : Bool :=
  match lookupJ k a with
  | none => true
  | some (JVal.vStr _) => true
  | some JVal.vNull => true
  | some _ => false

/-- Well-formed optional coordinate: absent, `null`, or a (finite) number. -/
def wfCoord (k : String) (l : JObj) : Bool :=
  match lookupJ k l with
  | none => true
  | some JVal.vNull => true
  | some (JVal.vNum _) => true
  | some _ => false

/-- Well-formed optional location: absent, `null`, or an object with
well-formed coordinates. -/
def wfLocation (a : JObj) : Bool :=
  match lookupJ "location" a with
  | none => true
  | some JVal.vNull => true
  | some (JVal.vObj l) => wfCoord "lat" l && wfCoord "lon" l
  | some _ => false

/-- A record as the app stores it: `story`/`timestamp` strings (or absent)
and `location` an object of numbers (or absent). -/
def wfRec (a : JObj) : Bool :=
  wfStrField "story" a && wfStrField "timestamp" a && wfLocation a

/-- Case-insensitive substring test: the (already normalised) term occurs
in the lower-cased text. -/
def ciHit (t text : String) : Bool := jsIncludes (lowerStr text) t

/-- Spec-side story branch: the term is a case-insensitive substring of the
story text. -/
def storyHitSpec (t : String) (a : JObj) : Bool :=
  match lookupJ "story" a with
  | some (JVal.vStr s) => ciHit t s
  | _ => false

/-- Spec-side timestamp branch. -/
def tsHitSpec (t : String) (a : JObj) : Bool :=
  match lookupJ "timestamp" a with
  | some (JVal.vStr s) => ciHit t s
  | _ => false

/-- Spec-side location branch: the term is a case-insensitive substring of
the string representation of a coordinate of the present location. -/
def locHitSpec (t : String) (a : JObj) : Bool :=
  match lookupJ "location" a with
  | some (JVal.vObj l) =>
      (match lookupJ "lat" l with
       | some (JVal.vNum x) => ciHit t (ratToStr x)
       | _ => false) ||
      (match lookupJ "lon" l with
       | some (JVal.vNum x) => ciHit t (ratToStr x)
       | _ => false)
  | _ => false

/-- The claim's filter, stated from the spec's words on the trimmed,
lower-cased term: case-insensitive substring match over story text,
timestamp string representation, and location coordinates when present. -/
def specMatch (t : String) (a : JObj) : Bool :=
  storyHitSpec t a || tsHitSpec t a || locHitSpec t a

theorem storyHit_eq_spec (t : String) (a : JObj) (ht : t ≠ "")
    (hw : wfStrField "story" a = true) : storyHit t a = storyHitSpec t a := by
  unfold storyHit storyHitSpec
  unfold wfStrField at hw
  cases hs : lookupJ "story" a with
  | none => rfl
  | some v =>
    rw [hs] at hw
    cases v with
    | vStr s =>
      by_cases hse : s = ""
      · subst hse
        simp [ciHit, jsIncludes_empty t ht, show lowerStr "" = "" from rfl]
      · simp [ciHit, hse]
    | vNull => rfl
    | vNum q => simp at hw
    | vBool b => simp at hw
    | vObj fs => simp at hw

theorem tsHit_eq_spec (t : String) (a : JObj) (ht : t ≠ "")
    (hw : wfStrField "timestamp" a = true) : tsHit t a = tsHitSpec t a := by
  unfold tsHit tsHitSpec
  unfold wfStrField at hw
  cases hs : lookupJ "timestamp" a with
  | none => rfl
  | some v =>
    rw [hs] at hw
    cases v with
    | vStr s =>
      by_cases hse : s = ""
      · subst hse
        simp [ciHit, jsIncludes_empty t ht, show lowerStr "" = "" from rfl]
      · simp [ciHit, hse]
    | vNull => rfl
    | vNum q => simp at hw
    | vBool b => simp at hw
    | vObj fs => simp at hw

theorem coordHit_eq_spec (t : String) (l : JObj) (k : String)
    (hw : wfCoord k l = true) :
    (match (lookupJ k l).bind jsToStr with
     | some str => jsIncludes str t
     | none => false) =
    (match lookupJ k l with
     | some (JVal.vNum x) => ciHit t (ratToStr x)
     | _ => false) := by
  unfold wfCoord at hw
  cases hx : lookupJ k l with
  | none => rfl
  | some w =>
    rw [hx] at hw
    cases w with
    | vNum x =>
      show jsIncludes (ratToStr x) t = ciHit t (ratToStr x)
      unfold ciHit
      rw [lowerStr_ratToStr]
    | vNull => rfl
    | vStr s => simp at hw
    | vBool b => simp at hw
    | vObj fs => simp at hw

theorem locHit_eq_spec (t : String) (a : JObj)
    (hw : wfLocation a = true) : locHit t a = locHitSpec t a := by
  unfold locHit locHitSpec
  unfold wfLocation at hw
  cases hl : lookupJ "location" a with
  | none => rfl
  | some lv =>
    rw [hl] at hw
    cases lv with
    | vObj l =>
      simp only [Bool.and_eq_true] at hw
      simp only [jGet]
      rw [coordHit_eq_spec t l "lat" hw.1, coordHit_eq_spec t l "lon" hw.2]
      simp [JVal.truthy]
    | vNull => rfl
    | vStr s => simp at hw
    | vNum x => simp at hw
    | vBool b => simp at hw

theorem recMatches_eq_spec (t : String) (a : JObj) (ht : t ≠ "")
    (hw : wfRec a = true) : recMatches t a = specMatch t a := by
  unfold wfRec at hw
  simp only [Bool.and_eq_true] at hw
  unfold recMatches specMatch
  rw [storyHit_eq_spec t a ht hw.1.1, tsHit_eq_spec t a ht hw.1.2,
    locHit_eq_spec t a hw.2, Bool.or_assoc, Bool.or_assoc,
    Bool.or_comm (locHitSpec t a) (tsHitSpec t a)]

theorem isWs_lowerChar (c : Char) : isWs (lowerChar c) = isWs c := by
  unfold lowerChar
  cases h : ucTable.find? (fun p => p.1 == c) with
  | none => rfl
  | some p =>
    have hm : p ∈ ucTable := List.mem_of_find?_eq_some h
    have hp := List.find?_some h
    have hc : p.1 = c := by simpa using hp
    subst hc
    fin_cases hm <;> decide

theorem dropWhile_lowerWs (l : List Char) :
    l.dropWhile (isWs ∘ lowerChar) = l.dropWhile isWs := by
  induction l with
  | nil => rfl
  | cons c l ih =>
    simp only [List.dropWhile_cons, Function.comp_apply, isWs_lowerChar]
    cases isWs c <;> simp [ih]

theorem trimChars_map_lowerChar (l : List Char) :
    trimChars (l.map lowerChar) = (trimChars l).map lowerChar := by
  unfold trimChars
  rw [List.dropWhile_map, dropWhile_lowerWs, ← List.map_reverse, List.dropWhile_map,
    dropWhile_lowerWs, ← List.map_reverse]

theorem searchTerm_ne_empty (q : String) (hq : trimStr q ≠ "") : searchTerm q ≠ "" := by
  intro h
  apply hq
  have h2 : trimChars (q.data.map lowerChar) = [] := by
    have h3 := congrArg String.data h
    simpa [searchTerm, trimStr, lowerStr] using h3
  rw [trimChars_map_lowerChar] at h2
  have h3 : trimChars q.data = [] := List.map_eq_nil_iff.mp h2
  show trimStr q = ""
  unfold trimStr
  rw [h3]

/-- C8 amended: a blank (or empty) query returns the whole collection; a
non-blank query returns exactly the well-formed records for which the
trimmed, lower-cased query is a case-insensitive substring of the story
text, of the timestamp's string representation, or of a present location
coordinate's string representation. -/
theorem searchAnalyses_spec (s : Store) (q : String)
    (hwf : ∀ a ∈ getAnalyses s, wfRec a = true) :
    (trimStr q = "" → searchAnalyses s q = getAnalyses s) ∧
    (trimStr q ≠ "" →
       searchAnalyses s q = (getAnalyses s).filter (specMatch (searchTerm q))) := by
  constructor
  · intro hq
    unfold searchAnalyses
    rw [if_pos (by simp [hq])]
  · intro hq
    have hq0 : ¬ q = "" := fun he => hq (by rw [he]; rfl)
    have hterm : searchTerm q ≠ "" := searchTerm_ne_empty q hq
    unfold searchAnalyses
    rw [if_neg (by simp [hq0, hq])]
    exact List.filter_congr
      (fun a ha => recMatches_eq_spec (searchTerm q) a hterm (hwf a ha))

/-- The claim's original filter on the untrimmed query: the raw query is a
case-insensitive substring of a searched text. -/
def rawQueryMatch (q : String) (a : JObj) : Bool := specMatch (lowerStr q) a

/-- One-record store for the C8 counterexample. -/
def c8CexStore : Store :=
  { available := true
    analyses := some [[("id", JVal.vStr "r1"), ("story", JVal.vStr "abc"),
                       ("timestamp", JVal.vStr "2024")]]
    settings := none }

/-- C8 counterexample: for the whitespace-padded query `" abc "` on a store
whose single record has story `abc`, the code returns the record (it trims
the query before matching), yet the query itself is a case-insensitive
substring of none of the record's searched texts — so search does not
return exactly the records matched by the untrimmed query. -/
theorem searchAnalyses_counterexample :
    (searchAnalyses c8CexStore " abc ").length = 1 ∧
    ((getAnalyses c8CexStore).filter (rawQueryMatch " abc ")).length = 0 := by
  decide

/-- Two-record store for the C8 witness, with a location. -/
def c8Store : Store :=
  { available := true
    analyses := some
      [[("id", JVal.vStr "r1"), ("story", JVal.vStr "Great SOIL here"),
        ("timestamp", JVal.vStr "2024-01-01T00:00:00.000Z"),
        ("location", JVal.vObj [("lat", JVal.vNum (407128 / 10000)),
                                ("lon", JVal.vNum (-74006 / 1000))])],
       [("id", JVal.vStr "r2"), ("story", JVal.vStr "clay")]]
    settings := none }

theorem searchAnalyses_spec_witness :
    searchAnalyses c8Store "   " = getAnalyses c8Store ∧
    searchAnalyses c8Store "soil" =
      (getAnalyses c8Store).filter (specMatch (searchTerm "soil")) :=
  ⟨(searchAnalyses_spec c8Store "   " (by decide)).1 (by decide),
   (searchAnalyses_spec c8Store "soil" (by decide)).2 (by decide)⟩
